import Mathlib

/-! Container operations of the object-storage client binding.

A shallow embedding of `openstack/storage/v1/containers/requests.go`:
`ListResult.IsEmpty`, `ListResult.LastMarker`, `List`, `Create`, `Delete`,
`Update` and `Get`, followed by the properties established about them.

Conventions of the embedding.

* A Go `map[string]string` is an association list with pairwise distinct keys
  (`GoMap`). A nil map and an empty map behave alike under `range`, so option
  maps are plain `GoMap` values; where the source distinguishes a nil map
  (the headers of the pager, the zero `Container`) the type is `Option GoMap`.
* A Go pointer is an `Option`; `none` is the nil pointer.
* A Go `error` is an `Option Error`; `none` is the nil error.
* A Go function that can panic returns an `Outcome`.
* Every operation returns, next to its Go results, the list of calls it made
  to the request executor (`Traced`).
-/

namespace gophercloud

/-! ## Go values -/

/-- Go `map[string]string`: finite map from strings to strings. -/
abbrev GoMap := AList (fun _ : String => String)

namespace GoMap

/-- Map assignment `h[k] = v`. -/
def set (h : GoMap) (k v : String) : GoMap := AList.insert k v h

/-- Map literal with one entry, `map[string]string{k: v}`. -/
def literal (k v : String) : GoMap := AList.singleton k v

end GoMap

/-- The loop `for k, v := range src { h[key(k)] = v }`. The `range` clause
visits every entry of `src` exactly once, in an order Go leaves unspecified;
the order of `src.entries` stands for the order of one execution. -/
def rangeAssign (key : String → String) (src h : GoMap) : GoMap :=
  src.entries.foldl (fun acc kv => acc.set (key kv.1) kv.2) h

/-- Slice indexing `xs[i]` on a Go `int` index: `none` is the run-time panic
for an index out of range. -/
def sliceIndex (xs : List String) (i : Int) : Option String :=
  if i < 0 then none else xs[i.toNat]?

/-- Result of running a Go function body: it returns, or it panics. -/
inductive Outcome (α : Type) where
  | returned (a : α)
  | panicked
deriving DecidableEq, Repr

/-- The error values of section 7 of the specification. -/
inductive Error where
  | UnexpectedStatus (operation : String) (actual : Int)
  | TransportError (msg : String)
  | ParseError (msg : String)
deriving DecidableEq, Repr

/-- Status code carried by an error, when it carries one. -/
def Error.actualStatus : Error → Option Int
  | .UnexpectedStatus _ actual => some actual
  | .TransportError _ => none
  | .ParseError _ => none

/-! ## Collaborators that are not part of `requests.go` -/

/-- The part of `http.Response` used here: status code and raw headers. -/
structure HttpResponse where
  StatusCode : Int
  Header : GoMap

/-- The response value of the request executor; `Get` reads its
`HttpResponse` field. -/
structure Response where
  HttpResponse : HttpResponse
  StatusCode : Int

/-- The options `requests.go` passes to the request executor. -/
structure Options where
  MoreHeaders : GoMap
  OkCodes : List Int

/-- One call `perigee.Request(method, url, opts)`. -/
structure Call where
  method : String
  url : String
  opts : Options

/-- The request executor as seen by its callers: it returns a response
pointer and an error. -/
abbrev Executor := Call → Option Response × Option Error

/-- A value together with the executor calls made while computing it. -/
structure Traced (α : Type) where
  value : α
  calls : List Call

/-- Modelled from the spec: the client-configuration value of section 9, that
is `gophercloud.ServiceClient` with what `c.Provider.AuthenticatedHeaders()`
returns for it (the authenticated base headers, a freshly built map that
is not nil, so that assigning into it does not panic). -/
structure ServiceClient where
  Endpoint : String
  AuthenticatedHeaders : GoMap

/-- Body-carrying response handed by the pager to `createPage`. -/
structure LastHTTPResponse where
  Body : String

/-- The embedded `pagination.MarkerPageBase`. -/
structure MarkerPageBase where
  LastHTTPResponse : LastHTTPResponse

namespace containers

/-- The type `ListResult` of `requests.go`. -/
structure ListResult where
  MarkerPageBase : MarkerPageBase

/-- Functions of the repository that `requests.go` calls and that live in
other files; they are parameters of the embedding. -/
structure Helpers where
  BuildQuery : GoMap → String
  getAccountURL : ServiceClient → String
  getContainerURL : ServiceClient → String → String
  ExtractNames : ListResult → List String × Option Error

/-- The type `ListOpts`. -/
structure ListOpts where
  Full : Bool
  Params : GoMap

/-- The type `CreateOpts`. -/
structure CreateOpts where
  Name : String
  Headers : GoMap
  Metadata : GoMap

/-- The type `DeleteOpts`. -/
structure DeleteOpts where
  Name : String
  Params : GoMap

/-- The type `UpdateOpts`. -/
structure UpdateOpts where
  Name : String
  Headers : GoMap
  Metadata : GoMap

/-- The type `GetOpts`. -/
structure GetOpts where
  Name : String
  Metadata : GoMap

/-- The type `Container`, a Go map; `none` is its zero value, the nil map. -/
abbrev Container := Option GoMap

/-- The type `GetResult`, a pointer to an `http.Response`. -/
abbrev GetResult := Option HttpResponse

end containers

/-- The pager value built by `pagination.NewPager` and completed by `List`. -/
structure Pager where
  client : ServiceClient
  initialURL : String
  createPage : LastHTTPResponse → containers.ListResult
  Headers : Option GoMap

/-- Modelled from the spec: `pagination.NewPager`, which is not in
`requests.go`; it records the client, the base URL and the page-producing
function, and leaves the headers unset. -/
def NewPager (c : ServiceClient) (url : String)
    (createPage : LastHTTPResponse → containers.ListResult) : Pager :=
  { client := c, initialURL := url, createPage := createPage, Headers := none }

/-! ## `requests.go` -/

namespace containers

/-- Method `ListResult.IsEmpty` (lines 17 to 24). -/
def ListResult.IsEmpty (hp : Helpers) (r : ListResult) : Bool × Option Error :=
  match hp.ExtractNames r with
  | (_, some err) => (true, some err)
  | (names, none) => (decide (names.length = 0), none)

/-- Method `ListResult.LastMarker` (lines 26 to 36). -/
def ListResult.LastMarker (hp : Helpers) (r : ListResult) :
    Outcome (String × Option Error) :=
  match hp.ExtractNames r with
  | (_, some err) => .returned ("", some err)
  | (names, none) =>
    if names.length = 0 then .returned ("", none)
    else
      match sliceIndex names ((names.length : Int) - 1) with
      | some last => .returned (last, none)
      | none => .panicked

/-- Function `Create` (lines 66 to 90). -/
def Create (hp : Helpers) (Request : Executor) (c : ServiceClient) (opts : CreateOpts) :
    Traced (Container × Option Error) :=
  let ci : Container := none
  let h := c.AuthenticatedHeaders
  let h := rangeAssign (fun k => k) opts.Headers h
  let h := rangeAssign (fun k => "X-Container-Meta-" ++ k) opts.Metadata h
  let url := hp.getContainerURL c opts.Name
  let call : Call := { method := "PUT", url := url,
                       opts := { MoreHeaders := h, OkCodes := [201, 204] } }
  let err := (Request call).2
  let ci : Container :=
    match err with
    | none => some (GoMap.literal "name" opts.Name)
    | some _ => ci
  { value := (ci, err), calls := [call] }

/-- Function `Delete` (lines 93 to 104). -/
def Delete (hp : Helpers) (Request : Executor) (c : ServiceClient) (opts : DeleteOpts) :
    Traced (Option Error) :=
  let h := c.AuthenticatedHeaders
  let query := hp.BuildQuery opts.Params
  let url := hp.getContainerURL c opts.Name ++ query
  let call : Call := { method := "DELETE", url := url,
                       opts := { MoreHeaders := h, OkCodes := [204] } }
  let err := (Request call).2
  { value := err, calls := [call] }

/-- Function `Update` (lines 107 to 124). -/
def Update (hp : Helpers) (Request : Executor) (c : ServiceClient) (opts : UpdateOpts) :
    Traced (Option Error) :=
  let h := c.AuthenticatedHeaders
  let h := rangeAssign (fun k => k) opts.Headers h
  let h := rangeAssign (fun k => "X-Container-Meta-" ++ k) opts.Metadata h
  let url := hp.getContainerURL c opts.Name
  let call : Call := { method := "POST", url := url,
                       opts := { MoreHeaders := h, OkCodes := [204] } }
  let err := (Request call).2
  { value := err, calls := [call] }

/-- Function `Get` (lines 128 to 141). The returned expression `&resp.HttpResponse`
selects a field through the pointer `resp`, which panics when `resp` is nil. -/
def Get (hp : Helpers) (Request : Executor) (c : ServiceClient) (opts : GetOpts) :
    Traced (Outcome (GetResult × Option Error)) :=
  let h := c.AuthenticatedHeaders
  let h := rangeAssign (fun k => "X-Container-Meta-" ++ k) opts.Metadata h
  let url := hp.getContainerURL c opts.Name
  let call : Call := { method := "HEAD", url := url,
                       opts := { MoreHeaders := h, OkCodes := [204] } }
  let (resp, err) := Request call
  match resp with
  | none => { value := .panicked, calls := [call] }
  | some resp => { value := .returned (some resp.HttpResponse, err), calls := [call] }

/-- Function `List` (lines 44 to 63). The assignment
`p.MarkerPageBase.Owner = p` of `createPage` stores a reference from the page
base back to the page, through which the pager reaches `IsEmpty` and
`LastMarker`; here the pager calls these two methods on the page itself. -/
def List (hp : Helpers) (c : ServiceClient) (opts : ListOpts) : Pager :=
  let headers : Option GoMap := none
  let query := hp.BuildQuery opts.Params
  let headers :=
    if !opts.Full then some (GoMap.literal "Content-Type" "text/plain") else headers
  let createPage := fun (r : LastHTTPResponse) =>
    let p : ListResult := { MarkerPageBase := { LastHTTPResponse := r } }
    p
  let url := hp.getAccountURL c ++ query
  let pager := NewPager c url createPage
  { pager with Headers := headers }

end containers

/-! ## The request executor -/

/-- What happens to one HTTP request: it cannot be built, so that nothing is
sent; or the exchange fails before a response arrives; or a response with
some status code comes back. -/
inductive NetReply where
  | unbuilt (e : Error)
  | failed (e : Error)
  | answered (r : HttpResponse)

/-- The network: method, URL and headers of a request to the reply. -/
abbrev Network := String → String → GoMap → NetReply

namespace perigee

/-- Modelled from the spec: the Request Executor, the external function
`perigee.Request`. It performs a single HTTP request given method, URL,
headers and a set of acceptable status codes; it fails if the response status
is not in that set, with an error that carries the actual status and the
operation; a request that could not be completed surfaces its error
unchanged. The specification leaves open which response value comes with an
error; as the executor does, the model hands back the response it received
next to the error for a status outside the set, a response value without
content when the exchange failed, and no response only when the request could
not be built. -/
def Request (net : Network) : Executor := fun call =>
  match net call.method call.url call.opts.MoreHeaders with
  | .unbuilt e => (none, some e)
  | .failed e =>
    (some { HttpResponse := { StatusCode := 0, Header := ∅ }, StatusCode := 0 }, some e)
  | .answered r =>
    if r.StatusCode ∈ call.opts.OkCodes then
      (some { HttpResponse := r, StatusCode := r.StatusCode }, none)
    else
      (some { HttpResponse := r, StatusCode := r.StatusCode },
       some (.UnexpectedStatus call.method r.StatusCode))

end perigee

/-! ## The marker pager -/

/-- One GET issued by the pager: the URL of the listing, the current marker
if any, and the headers of the pager. -/
structure PageCall where
  url : String
  marker : Option String
  headers : Option GoMap

/-- How a listing session ended: the sequence terminated, an error was
returned, the program panicked, or the given number of advances was used up
first. -/
inductive Ending where
  | finished
  | failed (e : Error)
  | crashed
  | unfinished

/-- The pages yielded by a listing session, the GETs issued, and the way the
session ended. -/
structure Listing where
  pages : List containers.ListResult
  calls : List PageCall
  ending : Ending

/-- Modelled from the spec: the Marker Pager of package `pagination`, which is
not in `requests.go`. On each advance it issues one GET against the URL with
the current marker, if any; it extracts the list of names from the response
body (through `IsEmpty`); if the list is empty the sequence terminates;
otherwise the sequence yields this page and the next advance uses the last
name of the current page (`LastMarker`) as the new marker. The first argument
bounds the number of advances. -/
def Pager.advance (hp : containers.Helpers) (get : PageCall → Except Error LastHTTPResponse)
    (p : Pager) : Nat → Option String → Listing
  | 0, _ => { pages := [], calls := [], ending := .unfinished }
  | fuel + 1, marker =>
    let call : PageCall := { url := p.initialURL, marker := marker, headers := p.Headers }
    match get call with
    | .error e => { pages := [], calls := [call], ending := .failed e }
    | .ok r =>
      let page := p.createPage r
      match page.IsEmpty hp with
      | (_, some e) => { pages := [], calls := [call], ending := .failed e }
      | (true, none) => { pages := [], calls := [call], ending := .finished }
      | (false, none) =>
        match page.LastMarker hp with
        | .panicked => { pages := [page], calls := [call], ending := .crashed }
        | .returned (_, some e) => { pages := [page], calls := [call], ending := .failed e }
        | .returned (mark, none) =>
          let rest := Pager.advance hp get p fuel (some mark)
          { pages := page :: rest.pages, calls := call :: rest.calls, ending := rest.ending }

/-- The names a server hands out for a marker, when the GET and the name
extraction both succeed. -/
def namesAt (hp : containers.Helpers) (get : PageCall → Except Error LastHTTPResponse)
    (p : Pager) (m : Option String) : Option (List String) :=
  match get { url := p.initialURL, marker := m, headers := p.Headers } with
  | .error _ => none
  | .ok r =>
    match hp.ExtractNames (p.createPage r) with
    | (ns, none) => some ns
    | (_, some _) => none

/-- The server answers successive marker values, starting from `m`, with the
given non-empty pages followed by one empty page. -/
def Serves (hp : containers.Helpers) (get : PageCall → Except Error LastHTTPResponse)
    (p : Pager) : Option String → List (List String) → Prop
  | m, [] => namesAt hp get p m = some []
  | m, ns :: rest => ns ≠ [] ∧ namesAt hp get p m = some ns ∧ Serves hp get p ns.getLast? rest

/-- Decision procedure for `Serves`. -/
instance Serves.decidable (hp : containers.Helpers)
    (get : PageCall → Except Error LastHTTPResponse) (p : Pager) :
    ∀ (m : Option String) (pages : List (List String)), Decidable (Serves hp get p m pages)
  | m, [] => inferInstanceAs (Decidable (namesAt hp get p m = some []))
  | m, ns :: rest =>
    have : Decidable (Serves hp get p ns.getLast? rest) :=
      Serves.decidable hp get p ns.getLast? rest
    inferInstanceAs (Decidable (ns ≠ [] ∧ namesAt hp get p m = some ns ∧
      Serves hp get p ns.getLast? rest))

/-- The error of the name extraction on the page a server hands out for a
marker, when the GET succeeds and the body cannot be parsed. -/
def extractErrorAt (hp : containers.Helpers) (get : PageCall → Except Error LastHTTPResponse)
    (p : Pager) (m : Option String) : Option Error :=
  match get { url := p.initialURL, marker := m, headers := p.Headers } with
  | .error _ => none
  | .ok r => (hp.ExtractNames (p.createPage r)).2

/-- The server answers successive marker values, starting from `m`, with the
given non-empty pages followed by one page whose body cannot be parsed, the
extraction failing with `e`. -/
def FailsAfter (hp : containers.Helpers) (get : PageCall → Except Error LastHTTPResponse)
    (p : Pager) (e : Error) : Option String → List (List String) → Prop
  | m, [] => extractErrorAt hp get p m = some e
  | m, ns :: rest =>
    ns ≠ [] ∧ namesAt hp get p m = some ns ∧ FailsAfter hp get p e ns.getLast? rest

/-- Decision procedure for `FailsAfter`. -/
instance FailsAfter.decidable (hp : containers.Helpers)
    (get : PageCall → Except Error LastHTTPResponse) (p : Pager) (e : Error) :
    ∀ (m : Option String) (pages : List (List String)),
      Decidable (FailsAfter hp get p e m pages)
  | m, [] => inferInstanceAs (Decidable (extractErrorAt hp get p m = some e))
  | m, ns :: rest =>
    have : Decidable (FailsAfter hp get p e ns.getLast? rest) :=
      FailsAfter.decidable hp get p e ns.getLast? rest
    inferInstanceAs (Decidable (ns ≠ [] ∧ namesAt hp get p m = some ns ∧
      FailsAfter hp get p e ns.getLast? rest))

/-! ## Sample values -/

/-- Sample helper functions: URLs by concatenation, one name per character
of the body, and the body made of one exclamation mark unparsable. -/
def sampleHelpers : containers.Helpers where
  BuildQuery := fun _ => "?format=json"
  getAccountURL := fun c => c.Endpoint
  getContainerURL := fun c name => c.Endpoint ++ name
  ExtractNames := fun r =>
    if r.MarkerPageBase.LastHTTPResponse.Body = "!" then
      ([], some (.ParseError "unparsable body"))
    else (r.MarkerPageBase.LastHTTPResponse.Body.data.map String.singleton, none)

/-- Sample client with one authenticated header. -/
def sampleClient : ServiceClient where
  Endpoint := "https://storage.example/v1/acct/"
  AuthenticatedHeaders := GoMap.literal "X-Auth-Token" "tok"

/-- Sample metadata, the map with the single entry color: blue. -/
def colorBlue : GoMap := GoMap.literal "color" "blue"

/-- Sample network answering every request with the given status code. -/
def statusNet (status : Int) : Network := fun _ _ _ => .answered { StatusCode := status, Header := ∅ }

/-- Sample listing server with pages of sizes 2, 2, 2 and 0. -/
def sampleGet : PageCall → Except Error LastHTTPResponse := fun call =>
  match call.marker with
  | none => .ok { Body := "ab" }
  | some m =>
    if m = "b" then .ok { Body := "cd" }
    else if m = "d" then .ok { Body := "ef" }
    else .ok { Body := "" }

/-- Sample listing server with one page of two names followed by a page whose
body cannot be parsed. -/
def brokenGet : PageCall → Except Error LastHTTPResponse := fun call =>
  match call.marker with
  | none => .ok { Body := "ab" }
  | some _ => .ok { Body := "!" }

/-! ## Lemmas on maps and strings -/

theorem lookup_foldl_set_of_forall_ne (key : String → String)
    (l : List (Sigma fun _ : String => String)) (h : GoMap) (y : String)
    (hy : ∀ e ∈ l, key e.1 ≠ y) :
    AList.lookup y (l.foldl (fun acc kv => GoMap.set acc (key kv.1) kv.2) h) = AList.lookup y h := by
  induction l generalizing h with
  | nil => rfl
  | cons e t ih =>
    rw [List.foldl_cons, ih _ (fun e' he' => hy e' (List.mem_cons_of_mem _ he'))]
    exact AList.lookup_insert_ne (fun heq => hy e (List.mem_cons_self _ _) heq.symm)

theorem lookup_foldl_set_of_mem (key : String → String) (hinj : Function.Injective key)
    (l : List (Sigma fun _ : String => String)) (hl : l.NodupKeys) (h : GoMap)
    (k v : String) (hmem : Sigma.mk k v ∈ l) :
    AList.lookup (key k) (l.foldl (fun acc kv => GoMap.set acc (key kv.1) kv.2) h) = some v := by
  induction l generalizing h with
  | nil => simp at hmem
  | cons e t ih =>
    rw [List.foldl_cons]
    rw [List.nodupKeys_cons] at hl
    rcases List.mem_cons.mp hmem with heq | ht
    · subst heq
      rw [lookup_foldl_set_of_forall_ne]
      · exact AList.lookup_insert _
      · intro e' he' hk
        have hkeys : e'.1 ∈ t.keys := List.mem_keys_of_mem he'
        rw [hinj hk] at hkeys
        exact hl.1 hkeys
    · exact ih hl.2 _ ht

theorem lookup_rangeAssign_of_lookup (key : String → String) (hinj : Function.Injective key)
    (src h : GoMap) (k v : String) (hk : AList.lookup k src = some v) :
    AList.lookup (key k) (rangeAssign key src h) = some v :=
  lookup_foldl_set_of_mem key hinj src.entries src.nodupKeys h k v
    (AList.mem_lookup_iff.mp hk)

theorem lookup_rangeAssign_of_forall_ne (key : String → String) (src h : GoMap) (y : String)
    (hy : ∀ k, k ∈ src → key k ≠ y) :
    AList.lookup y (rangeAssign key src h) = AList.lookup y h :=
  lookup_foldl_set_of_forall_ne key src.entries h y
    (fun e he => hy e.1 (List.mem_keys_of_mem he))

theorem append_left_cancel (p a b : String) (h : p ++ a = p ++ b) : a = b := by
  have hd : (p ++ a).data = (p ++ b).data := by rw [h]
  rw [String.data_append, String.data_append] at hd
  exact String.ext (List.append_cancel_left hd)

theorem metaKey_injective : Function.Injective (fun k : String => "X-Container-Meta-" ++ k) :=
  fun a b h => append_left_cancel _ a b h

theorem lookup_rangeAssign_congr (key : String → String) (hinj : Function.Injective key)
    (src src' h h' : GoMap) (hperm : src.entries.Perm src'.entries)
    (hh : ∀ x, AList.lookup x h = AList.lookup x h') (y : String) :
    AList.lookup y (rangeAssign key src h) = AList.lookup y (rangeAssign key src' h') := by
  by_cases hex : ∃ k, k ∈ src ∧ key k = y
  · obtain ⟨k, hk, rfl⟩ := hex
    obtain ⟨v, hv⟩ := Option.isSome_iff_exists.mp (AList.lookup_isSome.mpr hk)
    have hv' : AList.lookup k src' = some v := by rw [← AList.perm_lookup hperm]; exact hv
    rw [lookup_rangeAssign_of_lookup key hinj src h k v hv,
      lookup_rangeAssign_of_lookup key hinj src' h' k v hv']
  · have hne : ∀ k, k ∈ src → key k ≠ y := fun k hk heq => hex ⟨k, hk, heq⟩
    have hne' : ∀ k, k ∈ src' → key k ≠ y :=
      fun k hk heq => hex ⟨k, (AList.mem_of_perm hperm).mpr hk, heq⟩
    rw [lookup_rangeAssign_of_forall_ne key src h y hne,
      lookup_rangeAssign_of_forall_ne key src' h' y hne', hh]

theorem lookup_rangeAssign_same_key (src h : GoMap) (x : String) :
    AList.lookup x (rangeAssign (fun k => k) src h) =
      (match AList.lookup x src with
       | some v => some v
       | none => AList.lookup x h) := by
  cases hx : AList.lookup x src with
  | some v => exact lookup_rangeAssign_of_lookup (fun k => k) (fun _ _ e => e) src h x v hx
  | none =>
    have hnot : x ∉ src := AList.lookup_eq_none.mp hx
    exact lookup_rangeAssign_of_forall_ne (fun k => k) src h x
      (fun k hk heq => hnot (heq ▸ hk))

theorem Get_calls (hp : containers.Helpers) (Request : Executor) (c : ServiceClient)
    (opts : containers.GetOpts) :
    (containers.Get hp Request c opts).calls =
      [{ method := "HEAD", url := hp.getContainerURL c opts.Name,
         opts := { MoreHeaders := rangeAssign (fun k => "X-Container-Meta-" ++ k) opts.Metadata
                     c.AuthenticatedHeaders,
                   OkCodes := [204] } }] := by
  unfold containers.Get
  dsimp only
  split <;> rfl

theorem sliceIndex_last (ns : List String) (hne : ns ≠ []) :
    sliceIndex ns ((ns.length : Int) - 1) = some (ns.getLastD "") := by
  have hpos : 0 < ns.length := List.length_pos.mpr hne
  have hnot : ¬ ((ns.length : Int) - 1 < 0) := by omega
  have hnat : ((ns.length : Int) - 1).toNat = ns.length - 1 := by omega
  unfold sliceIndex
  rw [if_neg hnot, hnat, ← List.getLast?_eq_getElem?, List.getLastD_eq_getLast?,
    List.getLast?_eq_getLast _ hne]
  rfl

theorem IsEmpty_of_names (hp : containers.Helpers) (r : containers.ListResult)
    (ns : List String) (hx : hp.ExtractNames r = (ns, none)) :
    r.IsEmpty hp = (decide (ns = []), none) := by
  by_cases hne : ns = []
  · subst hne
    simp [containers.ListResult.IsEmpty, hx]
  · simp [containers.ListResult.IsEmpty, hx, hne]

theorem LastMarker_of_names (hp : containers.Helpers) (r : containers.ListResult)
    (ns : List String) (hx : hp.ExtractNames r = (ns, none)) :
    r.LastMarker hp = .returned (ns.getLastD "", none) := by
  by_cases hne : ns = []
  · subst hne
    simp [containers.ListResult.LastMarker, hx]
  · simp [containers.ListResult.LastMarker, hx, hne, sliceIndex_last ns hne]

theorem namesAt_eq_some (hp : containers.Helpers)
    (get : PageCall → Except Error LastHTTPResponse) (p : Pager) (m : Option String)
    (ns : List String) (hn : namesAt hp get p m = some ns) :
    ∃ r, get { url := p.initialURL, marker := m, headers := p.Headers } = .ok r ∧
      hp.ExtractNames (p.createPage r) = (ns, none) := by
  unfold namesAt at hn
  cases hget : get { url := p.initialURL, marker := m, headers := p.Headers } with
  | error e => simp [hget] at hn
  | ok r =>
    refine ⟨r, rfl, ?_⟩
    rw [hget] at hn
    rcases hex : hp.ExtractNames (p.createPage r) with ⟨ns', err⟩
    cases err with
    | some e => simp [hex] at hn
    | none =>
      simp [hex] at hn
      rw [hn]

theorem advance_of_serves (hp : containers.Helpers)
    (get : PageCall → Except Error LastHTTPResponse) (p : Pager) :
    ∀ (pages : List (List String)) (m : Option String) (fuel : Nat),
      Serves hp get p m pages → pages.length < fuel →
      ((p.advance hp get fuel m).pages.map (fun pg => (hp.ExtractNames pg).1) = pages ∧
       (p.advance hp get fuel m).calls =
         (m :: pages.map List.getLast?).map
           (fun mk => { url := p.initialURL, marker := mk, headers := p.Headers }) ∧
       (p.advance hp get fuel m).ending = .finished) := by
  intro pages
  induction pages with
  | nil =>
    intro m fuel hs hfuel
    obtain ⟨f, rfl⟩ : ∃ f, fuel = f + 1 := ⟨fuel - 1, by simp at hfuel; omega⟩
    obtain ⟨r, hget, hex⟩ := namesAt_eq_some hp get p m [] hs
    simp [Pager.advance, hget, IsEmpty_of_names hp _ [] hex]
  | cons ns rest ih =>
    intro m fuel hs hfuel
    obtain ⟨f, rfl⟩ : ∃ f, fuel = f + 1 := ⟨fuel - 1, by simp at hfuel; omega⟩
    obtain ⟨hne, hnames, hrest⟩ := hs
    obtain ⟨r, hget, hex⟩ := namesAt_eq_some hp get p m ns hnames
    have hlast : ns.getLast? = some (ns.getLastD "") := by
      rw [List.getLastD_eq_getLast?, List.getLast?_eq_getLast _ hne]
      rfl
    rw [hlast] at hrest
    have hlen : rest.length < f := by simp at hfuel; omega
    obtain ⟨h1, h2, h3⟩ := ih (some (ns.getLastD "")) f hrest hlen
    simp only [Pager.advance, hget, IsEmpty_of_names hp _ ns hex,
      LastMarker_of_names hp _ ns hex, hne, decide_False, h1, h2, h3, List.map_cons, hex]
    rw [hlast]
    exact ⟨trivial, rfl, trivial⟩

theorem advance_of_failsAfter (hp : containers.Helpers)
    (get : PageCall → Except Error LastHTTPResponse) (p : Pager) (e : Error) :
    ∀ (pages : List (List String)) (m : Option String) (fuel : Nat),
      FailsAfter hp get p e m pages → pages.length < fuel →
      ((p.advance hp get fuel m).ending = .failed e ∧
       (p.advance hp get fuel m).pages.map (fun pg => (hp.ExtractNames pg).1) = pages ∧
       (p.advance hp get fuel m).calls =
         (m :: pages.map List.getLast?).map
           (fun mk => { url := p.initialURL, marker := mk, headers := p.Headers })) := by
  intro pages
  induction pages with
  | nil =>
    intro m fuel hs hfuel
    obtain ⟨f, rfl⟩ : ∃ f, fuel = f + 1 := ⟨fuel - 1, by simp at hfuel; omega⟩
    have hs' : extractErrorAt hp get p m = some e := hs
    unfold extractErrorAt at hs'
    cases hget : get { url := p.initialURL, marker := m, headers := p.Headers } with
    | error e' => simp [hget] at hs'
    | ok r =>
      rw [hget] at hs'
      have hs2 : (hp.ExtractNames (p.createPage r)).2 = some e := hs'
      rcases hex : hp.ExtractNames (p.createPage r) with ⟨ns', err⟩
      rw [hex] at hs2
      have herr : err = some e := hs2
      subst herr
      simp [Pager.advance, hget, containers.ListResult.IsEmpty, hex]
  | cons ns rest ih =>
    intro m fuel hs hfuel
    obtain ⟨f, rfl⟩ : ∃ f, fuel = f + 1 := ⟨fuel - 1, by simp at hfuel; omega⟩
    obtain ⟨hne, hnames, hrest⟩ := hs
    obtain ⟨r, hget, hex⟩ := namesAt_eq_some hp get p m ns hnames
    have hlast : ns.getLast? = some (ns.getLastD "") := by
      rw [List.getLastD_eq_getLast?, List.getLast?_eq_getLast _ hne]
      rfl
    rw [hlast] at hrest
    have hlen : rest.length < f := by simp at hfuel; omega
    obtain ⟨h1, h2, h3⟩ := ih (some (ns.getLastD "")) f hrest hlen
    simp only [Pager.advance, hget, IsEmpty_of_names hp _ ns hex,
      LastMarker_of_names hp _ ns hex, hne, decide_False, h1, h2, h3, List.map_cons, hex]
    rw [hlast]
    exact ⟨trivial, trivial, rfl⟩

/-! ## Properties of `ListResult.IsEmpty` and `ListResult.LastMarker` -/

/-- C10: `IsEmpty` and `LastMarker` agree with name extraction on every page.
When extraction fails with an error, `IsEmpty` returns true with that error
and `LastMarker` returns the empty string with that error. When extraction
yields a list, `IsEmpty` tells whether the list is empty, and `LastMarker`
returns the last element of the list, or the empty string for the empty list,
with a nil error; `LastMarker` always returns, so no index is out of range.
An unparsable body fails the listing rather than being skipped: when a server
answers with some non-empty pages and then with a page whose extraction fails
with an error, a listing session with enough advances ends with that error,
has yielded only the pages before the unparsable one, and issues no GET
after the one that fetched the unparsable page. -/
theorem IsEmpty_LastMarker_agree (hp : containers.Helpers) :
    (∀ (r : containers.ListResult) (ns : List String) (err : Option Error),
      hp.ExtractNames r = (ns, err) →
      r.IsEmpty hp =
        (match err with
         | some e => (true, some e)
         | none => (decide (ns = []), none)) ∧
      r.LastMarker hp =
        .returned (match err with
                   | some e => ("", some e)
                   | none => (ns.getLastD "", none))) ∧
    (∀ (get : PageCall → Except Error LastHTTPResponse) (p : Pager) (e : Error)
        (pages : List (List String)) (m : Option String) (fuel : Nat),
      FailsAfter hp get p e m pages → pages.length < fuel →
      (p.advance hp get fuel m).ending = .failed e ∧
      (p.advance hp get fuel m).pages.map (fun pg => (hp.ExtractNames pg).1) = pages ∧
      (p.advance hp get fuel m).calls =
        (m :: pages.map List.getLast?).map
          (fun mk => { url := p.initialURL, marker := mk, headers := p.Headers })) := by
  refine ⟨?_, ?_⟩
  · intro r ns err hx
    cases err with
    | some e => simp [containers.ListResult.IsEmpty, containers.ListResult.LastMarker, hx]
    | none => exact ⟨IsEmpty_of_names hp r ns hx, LastMarker_of_names hp r ns hx⟩
  · intro get p e pages m fuel hs hfuel
    exact advance_of_failsAfter hp get p e pages m fuel hs hfuel

/-- Witness for C10 on a page whose body holds the names a and b, and on the
server whose second page cannot be parsed. -/
theorem IsEmpty_LastMarker_agree_witness :
    sampleHelpers.ExtractNames { MarkerPageBase := { LastHTTPResponse := { Body := "ab" } } }
        = (["a", "b"], none) ∧
    containers.ListResult.IsEmpty sampleHelpers
        { MarkerPageBase := { LastHTTPResponse := { Body := "ab" } } } = (false, none) ∧
    containers.ListResult.LastMarker sampleHelpers
        { MarkerPageBase := { LastHTTPResponse := { Body := "ab" } } }
        = .returned ("b", none) ∧
    FailsAfter sampleHelpers brokenGet
        (containers.List sampleHelpers sampleClient { Full := false, Params := ∅ })
        (.ParseError "unparsable body") none [["a", "b"]] ∧
    ((containers.List sampleHelpers sampleClient { Full := false, Params := ∅ }).advance
        sampleHelpers brokenGet 2 none).ending = .failed (.ParseError "unparsable body") :=
  ⟨rfl,
   ((IsEmpty_LastMarker_agree sampleHelpers).1
      { MarkerPageBase := { LastHTTPResponse := { Body := "ab" } } } ["a", "b"] none rfl).1,
   ((IsEmpty_LastMarker_agree sampleHelpers).1
      { MarkerPageBase := { LastHTTPResponse := { Body := "ab" } } } ["a", "b"] none rfl).2,
   by decide,
   ((IsEmpty_LastMarker_agree sampleHelpers).2 brokenGet
      (containers.List sampleHelpers sampleClient { Full := false, Params := ∅ })
      (.ParseError "unparsable body") [["a", "b"]] none 2 (by decide) (by decide)).1⟩

/-! ## Properties of `List` -/

/-- C5: the pager returned by `List` has the header map with the single entry
Content-Type: text/plain when `opts.Full` is false, has a nil header map when
`opts.Full` is true, and in both cases has as URL the account URL followed by
the query string built from `opts.Params`. -/
theorem List_headers_and_url (hp : containers.Helpers) (c : ServiceClient)
    (opts : containers.ListOpts) :
    (containers.List hp c opts).Headers =
      (if opts.Full then none else some (GoMap.literal "Content-Type" "text/plain")) ∧
    (containers.List hp c opts).initialURL = hp.getAccountURL c ++ hp.BuildQuery opts.Params := by
  cases hfull : opts.Full <;> simp [containers.List, NewPager, hfull]

/-! ## Properties of `Create`, `Delete`, `Update` and `Get` -/

/-- C1: `Create` issues exactly one call, a PUT on the container URL with
acceptable status codes 201 and 204. Whatever the executor does, `Create`
returns the container with the entry name: `opts.Name` and a nil error when
the executor returns a nil error, and the nil container with the error of
the executor otherwise. With the executor of the specification, a response
of status 201 or 204 gives the first result, and any other status gives the
nil container with the error that reports that status. -/
theorem Create_contract (hp : containers.Helpers) (Request : Executor) (c : ServiceClient)
    (opts : containers.CreateOpts) :
    let h := rangeAssign (fun k => "X-Container-Meta-" ++ k) opts.Metadata
      (rangeAssign (fun k => k) opts.Headers c.AuthenticatedHeaders)
    let call : Call := { method := "PUT", url := hp.getContainerURL c opts.Name,
                         opts := { MoreHeaders := h, OkCodes := [201, 204] } }
    (containers.Create hp Request c opts).calls = [call] ∧
    (containers.Create hp Request c opts).value =
      (match (Request call).2 with
       | none => (some (GoMap.literal "name" opts.Name), none)
       | some e => (none, some e)) ∧
    ∀ (net : Network) (r : HttpResponse),
      net "PUT" (hp.getContainerURL c opts.Name) h = .answered r →
      (containers.Create hp (perigee.Request net) c opts).value =
        if r.StatusCode = 201 ∨ r.StatusCode = 204 then
          (some (GoMap.literal "name" opts.Name), none)
        else (none, some (.UnexpectedStatus "PUT" r.StatusCode)) := by
  intro h call
  refine ⟨rfl, ?_, ?_⟩
  · show (containers.Create hp Request c opts).value = _
    unfold containers.Create
    cases hreq : (Request call).2 <;> simp [hreq, call, h]
  · intro net r hnet
    unfold containers.Create
    by_cases hs : r.StatusCode = 201 ∨ r.StatusCode = 204
    · simp [perigee.Request, hnet, hs, h]
    · simp [perigee.Request, hnet, hs, h]

/-- Witness for C1 with a server answering 201 and a server answering 403. -/
theorem Create_contract_witness :
    (containers.Create sampleHelpers (perigee.Request (statusNet 201)) sampleClient
        { Name := "photos", Headers := ∅, Metadata := colorBlue }).value
      = (some (GoMap.literal "name" "photos"), none) ∧
    (containers.Create sampleHelpers (perigee.Request (statusNet 403)) sampleClient
        { Name := "photos", Headers := ∅, Metadata := colorBlue }).value
      = (none, some (.UnexpectedStatus "PUT" 403)) :=
  ⟨(Create_contract sampleHelpers (perigee.Request (statusNet 201)) sampleClient
      { Name := "photos", Headers := ∅, Metadata := colorBlue }).2.2
      (statusNet 201) { StatusCode := 201, Header := ∅ } rfl,
   (Create_contract sampleHelpers (perigee.Request (statusNet 403)) sampleClient
      { Name := "photos", Headers := ∅, Metadata := colorBlue }).2.2
      (statusNet 403) { StatusCode := 403, Header := ∅ } rfl⟩

/-- C2: `Delete` issues exactly one call, a DELETE on the container URL
followed by the query string, with 204 as the only acceptable status code,
and returns the error of the executor unchanged. With the executor of the
specification, a response of status 204 gives the nil error, and a response
of any other status gives the error that carries that status. -/
theorem Delete_contract (hp : containers.Helpers) (Request : Executor) (c : ServiceClient)
    (opts : containers.DeleteOpts) :
    let url := hp.getContainerURL c opts.Name ++ hp.BuildQuery opts.Params
    let call : Call := { method := "DELETE", url := url,
                         opts := { MoreHeaders := c.AuthenticatedHeaders, OkCodes := [204] } }
    (containers.Delete hp Request c opts).calls = [call] ∧
    (containers.Delete hp Request c opts).value = (Request call).2 ∧
    ∀ (net : Network) (r : HttpResponse),
      net "DELETE" url c.AuthenticatedHeaders = .answered r →
      (containers.Delete hp (perigee.Request net) c opts).value =
        (if r.StatusCode = 204 then none
         else some (.UnexpectedStatus "DELETE" r.StatusCode)) ∧
      (r.StatusCode ≠ 204 →
        ∃ e, (containers.Delete hp (perigee.Request net) c opts).value = some e ∧
          e.actualStatus = some r.StatusCode) := by
  intro url call
  refine ⟨rfl, rfl, ?_⟩
  intro net r hnet
  unfold containers.Delete
  by_cases hs : r.StatusCode = 204
  · simp [perigee.Request, hnet, hs, url]
  · simp [perigee.Request, hnet, hs, url, Error.actualStatus]

/-- Witness for C2 with a server answering 404 and a server answering 204. -/
theorem Delete_contract_witness :
    (containers.Delete sampleHelpers (perigee.Request (statusNet 404)) sampleClient
        { Name := "photos", Params := ∅ }).value = some (.UnexpectedStatus "DELETE" 404) ∧
    (containers.Delete sampleHelpers (perigee.Request (statusNet 204)) sampleClient
        { Name := "photos", Params := ∅ }).value = none :=
  ⟨((Delete_contract sampleHelpers (perigee.Request (statusNet 404)) sampleClient
      { Name := "photos", Params := ∅ }).2.2
      (statusNet 404) { StatusCode := 404, Header := ∅ } rfl).1,
   ((Delete_contract sampleHelpers (perigee.Request (statusNet 204)) sampleClient
      { Name := "photos", Params := ∅ }).2.2
      (statusNet 204) { StatusCode := 204, Header := ∅ } rfl).1⟩

/-- C7: header merge rule of `Create`. The header map of the single call that
`Create` issues maps the prefixed name of every metadata key to the metadata
value, also when the caller headers or the base headers define that name;
it maps every other name to its value in the caller headers when they define
it, and otherwise to its value in the base headers, if any, so that it has
no other keys. Distinct metadata keys give distinct header names. -/
theorem Create_header_merge (hp : containers.Helpers) (Request : Executor) (c : ServiceClient)
    (opts : containers.CreateOpts) :
    ∃ h : GoMap,
      (containers.Create hp Request c opts).calls =
        [{ method := "PUT", url := hp.getContainerURL c opts.Name,
           opts := { MoreHeaders := h, OkCodes := [201, 204] } }] ∧
      (∀ k v, AList.lookup k opts.Metadata = some v →
        AList.lookup ("X-Container-Meta-" ++ k) h = some v) ∧
      (∀ x, (∀ k, k ∈ opts.Metadata → x ≠ "X-Container-Meta-" ++ k) →
        AList.lookup x h =
          (match AList.lookup x opts.Headers with
           | some v => some v
           | none => AList.lookup x c.AuthenticatedHeaders)) ∧
      (∀ k k' : String, k ≠ k' → "X-Container-Meta-" ++ k ≠ "X-Container-Meta-" ++ k') := by
  refine ⟨_, rfl, ?_, ?_, ?_⟩
  · intro k v hk
    exact lookup_rangeAssign_of_lookup _ metaKey_injective _ _ k v hk
  · intro x hx
    rw [lookup_rangeAssign_of_forall_ne _ _ _ x (fun k hk heq => hx k hk heq.symm)]
    exact lookup_rangeAssign_same_key _ _ x
  · intro k k' hne heq
    exact hne (metaKey_injective heq)

/-- Witness for C7 where the caller headers and the metadata define the same
header name. -/
theorem Create_header_merge_witness :
    ∃ h : GoMap,
      (containers.Create sampleHelpers (perigee.Request (statusNet 201)) sampleClient
          { Name := "photos", Headers := GoMap.literal "X-Container-Meta-color" "red",
            Metadata := colorBlue }).calls =
        [{ method := "PUT", url := "https://storage.example/v1/acct/photos",
           opts := { MoreHeaders := h, OkCodes := [201, 204] } }] ∧
      AList.lookup "X-Container-Meta-color" h = some "blue" ∧
      AList.lookup "X-Auth-Token" h = some "tok" := by
  obtain ⟨h, hcalls, hmeta, hother, _⟩ :=
    Create_header_merge sampleHelpers (perigee.Request (statusNet 201)) sampleClient
      { Name := "photos", Headers := GoMap.literal "X-Container-Meta-color" "red",
        Metadata := colorBlue }
  refine ⟨h, hcalls, hmeta "color" "blue" (by decide), ?_⟩
  rw [hother "X-Auth-Token" (by
    intro k hk
    have hk' : k = "color" := by
      simpa [colorBlue, GoMap.literal, AList.keys_singleton] using AList.mem_keys.mp hk
    subst hk'
    decide)]
  decide

/-- C8: `Update` sends the header map that `Create` sends for the same base
headers, caller headers and metadata, as a POST on the container URL that
`Create` uses for the same name, with 204 as the only acceptable status code,
and returns the error of the executor unchanged. With the executor of the
specification `Update` returns nil exactly when the response has status 204;
a response of status 201 makes it return the error that reports 201. The
header map does not depend on the order in which `range` visits the caller
headers and the metadata. -/
theorem Update_matches_Create (hp : containers.Helpers) (Request Request' : Executor)
    (c : ServiceClient) (name : String) (H M : GoMap) :
    ∃ h : GoMap,
      (containers.Create hp Request' c { Name := name, Headers := H, Metadata := M }).calls =
        [{ method := "PUT", url := hp.getContainerURL c name,
           opts := { MoreHeaders := h, OkCodes := [201, 204] } }] ∧
      (containers.Update hp Request c { Name := name, Headers := H, Metadata := M }).calls =
        [{ method := "POST", url := hp.getContainerURL c name,
           opts := { MoreHeaders := h, OkCodes := [204] } }] ∧
      (containers.Update hp Request c { Name := name, Headers := H, Metadata := M }).value =
        (Request { method := "POST", url := hp.getContainerURL c name,
                   opts := { MoreHeaders := h, OkCodes := [204] } }).2 ∧
      (∀ net : Network,
        (containers.Update hp (perigee.Request net) c
            { Name := name, Headers := H, Metadata := M }).value = none ↔
          ∃ r, net "POST" (hp.getContainerURL c name) h = .answered r ∧ r.StatusCode = 204) ∧
      (∀ (net : Network) (r : HttpResponse),
        net "POST" (hp.getContainerURL c name) h = .answered r → r.StatusCode = 201 →
        (containers.Update hp (perigee.Request net) c
            { Name := name, Headers := H, Metadata := M }).value =
          some (.UnexpectedStatus "POST" 201)) ∧
      (∀ H' M' : GoMap, H'.entries.Perm H.entries → M'.entries.Perm M.entries →
        ∃ h' : GoMap,
          (containers.Update hp Request c { Name := name, Headers := H', Metadata := M' }).calls =
            [{ method := "POST", url := hp.getContainerURL c name,
               opts := { MoreHeaders := h', OkCodes := [204] } }] ∧
          ∀ x, AList.lookup x h' = AList.lookup x h) := by
  refine ⟨_, rfl, rfl, rfl, ?_, ?_, ?_⟩
  · intro net
    unfold containers.Update
    cases hnet : net "POST" (hp.getContainerURL c name)
        (rangeAssign (fun k => "X-Container-Meta-" ++ k) M
          (rangeAssign (fun k => k) H c.AuthenticatedHeaders)) with
    | unbuilt e => simp [perigee.Request, hnet]
    | failed e => simp [perigee.Request, hnet]
    | answered r =>
      by_cases hs : r.StatusCode = 204
      · simp [perigee.Request, hnet, hs]
      · simp [perigee.Request, hnet, hs]
  · intro net r hnet hs
    unfold containers.Update
    simp [perigee.Request, hnet, hs]
  · intro H' M' hH hM
    refine ⟨_, rfl, ?_⟩
    intro x
    exact lookup_rangeAssign_congr _ metaKey_injective M' M _ _ hM
      (fun y => lookup_rangeAssign_congr _ (fun _ _ e => e) H' H _ _ hH (fun _ => rfl) y) x

/-- Witness for C8 with a server answering 201. -/
theorem Update_matches_Create_witness :
    (containers.Update sampleHelpers (perigee.Request (statusNet 201)) sampleClient
        { Name := "photos", Headers := ∅, Metadata := colorBlue }).value
      = some (.UnexpectedStatus "POST" 201) := by
  obtain ⟨h, _, _, _, _, h201, _⟩ :=
    Update_matches_Create sampleHelpers (perigee.Request (statusNet 201))
      (perigee.Request (statusNet 201)) sampleClient "photos" ∅ colorBlue
  exact h201 (statusNet 201) { StatusCode := 201, Header := ∅ } rfl rfl

/-- C3, refuted as stated: with the metadata color: blue, the header map that
`Create`, `Update` and `Get` hand to the executor has no entry named
X-Container-Meta-Color. -/
theorem metadata_header_not_capitalised :
    (containers.Create sampleHelpers (perigee.Request (statusNet 201)) sampleClient
        { Name := "photos", Headers := ∅, Metadata := colorBlue }).calls.map
      (fun call => AList.lookup "X-Container-Meta-Color" call.opts.MoreHeaders) = [none] ∧
    (containers.Update sampleHelpers (perigee.Request (statusNet 204)) sampleClient
        { Name := "photos", Headers := ∅, Metadata := colorBlue }).calls.map
      (fun call => AList.lookup "X-Container-Meta-Color" call.opts.MoreHeaders) = [none] ∧
    (containers.Get sampleHelpers (perigee.Request (statusNet 204)) sampleClient
        { Name := "photos", Metadata := colorBlue }).calls.map
      (fun call => AList.lookup "X-Container-Meta-Color" call.opts.MoreHeaders) = [none] := by
  refine ⟨?_, ?_, ?_⟩ <;> decide

/-- C3, amended: with the metadata color: blue, the header map that `Create`,
`Update` and `Get` hand to the executor in their single call has the entry
X-Container-Meta-color: blue, the fixed string followed by the metadata key
as the caller wrote it. -/
theorem metadata_header_verbatim (hp : containers.Helpers) (Request : Executor)
    (c : ServiceClient) (name : String) (H : GoMap) :
    (containers.Create hp Request c
        { Name := name, Headers := H, Metadata := colorBlue }).calls.map
      (fun call => AList.lookup "X-Container-Meta-color" call.opts.MoreHeaders)
      = [some "blue"] ∧
    (containers.Update hp Request c
        { Name := name, Headers := H, Metadata := colorBlue }).calls.map
      (fun call => AList.lookup "X-Container-Meta-color" call.opts.MoreHeaders)
      = [some "blue"] ∧
    (containers.Get hp Request c { Name := name, Metadata := colorBlue }).calls.map
      (fun call => AList.lookup "X-Container-Meta-color" call.opts.MoreHeaders)
      = [some "blue"] := by
  have hkey : ∀ h : GoMap, AList.lookup "X-Container-Meta-color"
      (rangeAssign (fun k => "X-Container-Meta-" ++ k) colorBlue h) = some "blue" :=
    fun h => lookup_rangeAssign_of_lookup _ metaKey_injective colorBlue h "color" "blue"
      (by decide)
  refine ⟨?_, ?_, ?_⟩
  · simp only [containers.Create, List.map_cons, List.map_nil]
    rw [hkey]
  · simp only [containers.Update, List.map_cons, List.map_nil]
    rw [hkey]
  · rw [Get_calls]
    simp only [List.map_cons, List.map_nil]
    rw [hkey]

/-- C6, at the failing input: when the executor returns no response together
with an error, `Create`, `Delete` and `Update` return that error unchanged,
and `Get` panics on the nil response instead of returning. -/
theorem Get_panics_without_response (hp : containers.Helpers) (c : ServiceClient) (e : Error)
    (co : containers.CreateOpts) (dl : containers.DeleteOpts) (up : containers.UpdateOpts)
    (gt : containers.GetOpts) :
    (containers.Create hp (fun _ => (none, some e)) c co).value = (none, some e) ∧
    (containers.Delete hp (fun _ => (none, some e)) c dl).value = some e ∧
    (containers.Update hp (fun _ => (none, some e)) c up).value = some e ∧
    (containers.Get hp (fun _ => (none, some e)) c gt).value = .panicked :=
  ⟨rfl, rfl, rfl, rfl⟩

/-- C9, refuted as stated: when the server answers the HEAD with status 404,
`Get` returns the error that reports 404 together with a non-nil handle to the
response of status 404. -/
theorem Get_handle_with_error :
    (containers.Get sampleHelpers (perigee.Request (statusNet 404)) sampleClient
        { Name := "photos", Metadata := ∅ }).value =
      .returned (some { StatusCode := 404, Header := ∅ },
                 some (.UnexpectedStatus "HEAD" 404)) :=
  rfl

/-- C9, amended: `Get` issues exactly one call, a HEAD on the container URL
with 204 as the only acceptable status code. Whenever the executor hands back
a response, `Get` returns a non-nil handle to the HTTP response of the
executor, unchanged, together with the error of the executor, unchanged. With
the executor of the specification, a response of status 204 gives the handle
to that response and a nil error, and a response of any other status gives
the handle to that response and the error that reports that status. -/
theorem Get_hands_through (hp : containers.Helpers) (Request : Executor) (c : ServiceClient)
    (opts : containers.GetOpts) :
    let h := rangeAssign (fun k => "X-Container-Meta-" ++ k) opts.Metadata c.AuthenticatedHeaders
    let call : Call := { method := "HEAD", url := hp.getContainerURL c opts.Name,
                         opts := { MoreHeaders := h, OkCodes := [204] } }
    (containers.Get hp Request c opts).calls = [call] ∧
    (∀ (resp : Response) (err : Option Error), Request call = (some resp, err) →
      (containers.Get hp Request c opts).value = .returned (some resp.HttpResponse, err)) ∧
    (∀ (net : Network) (r : HttpResponse),
      net "HEAD" (hp.getContainerURL c opts.Name) h = .answered r →
      (containers.Get hp (perigee.Request net) c opts).value =
        .returned (some r,
          if r.StatusCode = 204 then none
          else some (.UnexpectedStatus "HEAD" r.StatusCode))) := by
  intro h call
  refine ⟨Get_calls hp Request c opts, ?_, ?_⟩
  · intro resp err hreq
    unfold containers.Get
    simp [hreq, call, h]
  · intro net r hnet
    unfold containers.Get
    by_cases hs : r.StatusCode = 204
    · simp [perigee.Request, hnet, hs, h]
    · simp [perigee.Request, hnet, hs, h]

/-- Witness for the amended C9 with a server answering 204 and a server
answering 404. -/
theorem Get_hands_through_witness :
    (containers.Get sampleHelpers (perigee.Request (statusNet 204)) sampleClient
        { Name := "photos", Metadata := colorBlue }).value
      = .returned (some { StatusCode := 204, Header := ∅ }, none) ∧
    (containers.Get sampleHelpers (perigee.Request (statusNet 404)) sampleClient
        { Name := "photos", Metadata := colorBlue }).value
      = .returned (some { StatusCode := 404, Header := ∅ },
                   some (.UnexpectedStatus "HEAD" 404)) :=
  ⟨(Get_hands_through sampleHelpers (perigee.Request (statusNet 204)) sampleClient
      { Name := "photos", Metadata := colorBlue }).2.2
      (statusNet 204) { StatusCode := 204, Header := ∅ } rfl,
   (Get_hands_through sampleHelpers (perigee.Request (statusNet 404)) sampleClient
      { Name := "photos", Metadata := colorBlue }).2.2
      (statusNet 404) { StatusCode := 404, Header := ∅ } rfl⟩

/-! ## Properties of the listing session -/

/-- C4: pagination over the pager returned by `List`. For every server that
answers the successive markers with the given non-empty pages followed by one
empty page, a session with enough advances yields exactly those pages, in
order, and then terminates without error; it issues one GET more than there
are pages; the first GET carries no marker and every later one carries the
last name of the page yielded just before. With no page at all, that is an
empty first page, the session yields nothing and ends without error. -/
theorem List_pagination (hp : containers.Helpers) (c : ServiceClient)
    (opts : containers.ListOpts) (get : PageCall → Except Error LastHTTPResponse)
    (pages : List (List String)) (fuel : Nat)
    (hserves : Serves hp get (containers.List hp c opts) none pages)
    (hfuel : pages.length < fuel) :
    ((containers.List hp c opts).advance hp get fuel none).pages.map
        (fun pg => (hp.ExtractNames pg).1) = pages ∧
    ((containers.List hp c opts).advance hp get fuel none).ending = .finished ∧
    ((containers.List hp c opts).advance hp get fuel none).calls.length = pages.length + 1 ∧
    ((containers.List hp c opts).advance hp get fuel none).calls =
      (none :: pages.map List.getLast?).map
        (fun mk => { url := (containers.List hp c opts).initialURL, marker := mk,
                     headers := (containers.List hp c opts).Headers }) := by
  obtain ⟨h1, h2, h3⟩ :=
    advance_of_serves hp get (containers.List hp c opts) pages none fuel hserves hfuel
  refine ⟨h1, h3, ?_, h2⟩
  rw [h2]
  simp

/-- Witness for C4 on the server with pages of sizes 2, 2, 2 and 0: three
pages are yielded and four GETs are issued. -/
theorem List_pagination_witness :
    Serves sampleHelpers sampleGet
        (containers.List sampleHelpers sampleClient { Full := false, Params := ∅ }) none
        [["a", "b"], ["c", "d"], ["e", "f"]] ∧
    ((containers.List sampleHelpers sampleClient { Full := false, Params := ∅ }).advance
        sampleHelpers sampleGet 4 none).pages.map
        (fun pg => (sampleHelpers.ExtractNames pg).1) = [["a", "b"], ["c", "d"], ["e", "f"]] ∧
    ((containers.List sampleHelpers sampleClient { Full := false, Params := ∅ }).advance
        sampleHelpers sampleGet 4 none).calls.length = 4 :=
  have hs : Serves sampleHelpers sampleGet
      (containers.List sampleHelpers sampleClient { Full := false, Params := ∅ }) none
      [["a", "b"], ["c", "d"], ["e", "f"]] :=
    by decide
  ⟨hs,
   (List_pagination sampleHelpers sampleClient { Full := false, Params := ∅ } sampleGet
      [["a", "b"], ["c", "d"], ["e", "f"]] 4 hs (by decide)).1,
   (List_pagination sampleHelpers sampleClient { Full := false, Params := ∅ } sampleGet
      [["a", "b"], ["c", "d"], ["e", "f"]] 4 hs (by decide)).2.2.1⟩

end gophercloud
